import Mathlib

/-!
Verification of the per-socket asynchronous operation state machine of the
ringbahn TCP layer: the operation guard (`guard_op`), cancellation on
operation switch, teardown on drop, the accept event descriptor's
cancellation, the `incoming` stream, the `socket` address-resolution loop,
and the `Connect` future's error pre-population.

The embedding is shallow: the Rust structs become Lean structures, the
effectful calls into the driver (submission, cancellation, synchronous
descriptor close) are recorded in an explicit effect trace, and a Rust
panic is modelled as `none` at the `Option` level.  File descriptors,
socket addresses and heap buffers are abstracted to `Nat` identities.
-/

/-- Identity of a heap-allocated address buffer (`Box<SockAddrStorage>`);
only its identity matters for the cancellation-safety protocol. -/
abbrev AddrBuf := Nat

/-- Abstract io error, distinguishing the variants the code constructs:
`invalidInput` for `ErrorKind::InvalidInput` with its message, `osError`
for `io::Error::last_os_error()` (carrying an errno), and `other` for
errors produced by collaborators (e.g. address decoding). -/
inductive IOErr where
  | invalidInput (msg : String)
  | osError (code : Nat)
  | other (code : Nat)
deriving DecidableEq, Repr

/-- A cancellation token: the capsule of memory handed to the driver when
an in-flight operation is abandoned.  `addr` is `Cancellation::from` of the
listener's `Option<Box<SockAddrStorage>>`, `buffer` is the stream buffer's
`buf.cancellation()` (identified by the backing region), `unit` is
`Cancellation::from(())`. -/
inductive Cancellation where
  | addr (a : Option AddrBuf)
  | buffer (b : Nat)
  | unit
deriving DecidableEq, Repr

/-- Observable effects issued to the driver or the OS by the socket layer:
a cancellation handed to the driver, one kernel submission, or a
synchronous `libc::close` of a file descriptor. -/
inductive Effect where
  | cancel (c : Cancellation)
  | submit
  | closeFd (fd : Nat)
deriving DecidableEq, Repr

/-- True exactly on cancellation effects. -/
def Effect.isCancel : Effect → Bool
  | .cancel _ => true
  | _ => false

/-- True exactly on synchronous descriptor-close effects. -/
def Effect.isCloseFd : Effect → Bool
  | .closeFd _ => true
  | _ => false

/-- Modelled from the spec: the driver/ring collaborator (the ring type of
the driver layer is not part of the extracted source).  Section 6 gives its contract:
`submit-or-poll(count, populate_fn) → pending | ready(kernel_result)` —
an operation is submitted once and subsequently only polled — and
`cancel(token)`, which hands the token to the driver for deferred release
and dissociates the ring from the cancelled operation so that a later poll
submits afresh.  `inFlight` records whether this ring currently tracks a
submitted, uncompleted operation. -/
structure RingHandle where
  inFlight : Bool
deriving DecidableEq, Repr

/-- Modelled from the spec: `submit-or-poll`.  The kernel's behaviour is an
oracle parameter `outcome`: `none` means the operation has not completed on
this poll, `some r` means the kernel delivers completion result `r` (a
non-negative return value or an errno).  If nothing is in flight the ring
submits (emitting `Effect.submit`) before checking for completion. -/
def RingHandle.poll (r : RingHandle) (outcome : Option (Except IOErr Nat)) :
    RingHandle × List Effect × Option (Except IOErr Nat) :=
  if r.inFlight then
    match outcome with
    | none => (r, [], none)
    | some res => (⟨false⟩, [], some res)
  else
    match outcome with
    | none => (⟨true⟩, [.submit], none)
    | some res => (⟨false⟩, [.submit], some res)

/-- Modelled from the spec: `cancel(token)` — the token moves to the driver
(recorded as an effect) and the ring no longer tracks the old operation. -/
def RingHandle.cancel (_r : RingHandle) (c : Cancellation) : RingHandle × List Effect :=
  (⟨false⟩, [.cancel c])

/-- Per-listener operation-state tag (`enum Op` in `listener.rs`). -/
inductive LOp where
  | Nothing
  | Accept
  | Close
  | Closed
deriving DecidableEq, Repr

/-- The listener socket object (`TcpListener` in `listener.rs`): a ring
handle, a raw file descriptor, the active-operation tag and the lazily
allocated address buffer.  `nextBuf` models the heap allocator supplying
fresh `Box` identities for `SockAddrStorage::uninit()`. -/
structure TcpListener where
  ring : RingHandle
  fd : Nat
  active : LOp
  addr : Option AddrBuf
  nextBuf : Nat
deriving DecidableEq, Repr

/-- `TcpListener::guard_op`: panic (`none`) when the listener is closed;
when a different operation is live, cancel it with
`Cancellation::from(addr.take())`; finally record `op` as active. -/
def TcpListener.guard_op (l : TcpListener) (op : LOp) :
    Option (TcpListener × List Effect) :=
  if l.active = LOp.Closed then
    none
  else if l.active ≠ LOp.Nothing ∧ l.active ≠ op then
    let (r, es) := l.ring.cancel (Cancellation.addr l.addr)
    some ({ l with ring := r, addr := none, active := op }, es)
  else
    some ({ l with active := op }, [])

/-- `TcpListener::cancel`: build the cancellation for the active operation
(the address buffer for `Accept`, the unit token for `Close`, nothing when
idle or closed), reset the tag and hand the token to the ring. -/
def TcpListener.cancel (l : TcpListener) : TcpListener × List Effect :=
  match l.active with
  | LOp.Accept =>
      let (r, es) := l.ring.cancel (Cancellation.addr l.addr)
      ({ l with ring := r, addr := none, active := LOp.Nothing }, es)
  | LOp.Close =>
      let (r, es) := l.ring.cancel Cancellation.unit
      ({ l with ring := r, active := LOp.Nothing }, es)
  | LOp.Closed => (l, [])
  | LOp.Nothing => (l, [])

/-- `TcpListener::drop_addr`: release the stored address buffer. -/
def TcpListener.drop_addr (l : TcpListener) : TcpListener :=
  { l with addr := none }

/-- `TcpListener::split_with_addr`: lazily allocate the address buffer if
absent (a fresh `Box<SockAddrStorage>`). -/
def TcpListener.split_with_addr (l : TcpListener) : TcpListener :=
  match l.addr with
  | some _ => l
  | none => { l with addr := some l.nextBuf, nextBuf := l.nextBuf + 1 }

/-- `TcpListener::confirm_close`: record the terminal state. -/
def TcpListener.confirm_close (l : TcpListener) : TcpListener :=
  { l with active := LOp.Closed }

/-- `impl Drop for TcpListener`: in the terminal state do nothing, when
idle close the descriptor synchronously, otherwise cancel the outstanding
operation.  Returns the effects of teardown. -/
def TcpListener.drop (l : TcpListener) : List Effect :=
  match l.active with
  | LOp.Closed => []
  | LOp.Nothing => [.closeFd l.fd]
  | _ => l.cancel.2

/-- What `SockAddrStorage::as_socket_addr` decodes to on completion:
an Inet (IPv4/IPv6) socket address, abstracted to a `Nat`, or an address
of some other family (carrying the family tag the panic message prints). -/
inductive SockAddrDecoded where
  | inet (a : Nat)
  | otherFamily (fam : Nat)
deriving DecidableEq, Repr

/-- A poll outcome: still pending, or ready with a value. -/
inductive Poll (α : Type) where
  | pending
  | ready (a : α)
deriving DecidableEq, Repr

/-- `TcpListener::poll_accept`: guard to `Accept`, lazily allocate the
address buffer, submit-or-poll the accept; on successful completion decode
the peer address (`decoded` is what `as_socket_addr` reads from the
buffer), releasing the buffer before the decode result is inspected;
a non-Inet family is a panic.  The ready item is the accepted stream's
descriptor paired with the peer address. -/
def TcpListener.poll_accept (l : TcpListener)
    (outcome : Option (Except IOErr Nat))
    (decoded : Except IOErr SockAddrDecoded) :
    Option (TcpListener × List Effect × Poll (Except IOErr (Nat × Nat))) :=
  match l.guard_op LOp.Accept with
  | none => none
  | some (l1, es1) =>
    let l2 := l1.split_with_addr
    match l2.ring.poll outcome with
    | (r, es2, none) => some ({ l2 with ring := r }, es1 ++ es2, .pending)
    | (r, es2, some (.error e)) =>
        some ({ l2 with ring := r }, es1 ++ es2, .ready (.error e))
    | (r, es2, some (.ok fd)) =>
        let l3 := TcpListener.drop_addr { l2 with ring := r }
        match decoded with
        | .error e => some (l3, es1 ++ es2, .ready (.error e))
        | .ok (.inet a) => some (l3, es1 ++ es2, .ready (.ok (fd, a)))
        | .ok (.otherFamily _) => none

/-- `impl Future for Close` (listener): guard to `Close`, submit-or-poll
the close; on successful completion `confirm_close`. -/
def TcpListener.poll_close (l : TcpListener)
    (outcome : Option (Except IOErr Nat)) :
    Option (TcpListener × List Effect × Poll (Except IOErr Unit)) :=
  match l.guard_op LOp.Close with
  | none => none
  | some (l1, es1) =>
    match l1.ring.poll outcome with
    | (r, es2, none) => some ({ l1 with ring := r }, es1 ++ es2, .pending)
    | (r, es2, some (.error e)) =>
        some ({ l1 with ring := r }, es1 ++ es2, .ready (.error e))
    | (r, es2, some (.ok _)) =>
        some (TcpListener.confirm_close { l1 with ring := r },
          es1 ++ es2, .ready (.ok ()))

/-- `impl Stream for Incoming`: poll the inner accept; a ready completion
is reported as one more item (`some`), never as end-of-sequence. -/
def Incoming.poll_next (l : TcpListener)
    (outcome : Option (Except IOErr Nat))
    (decoded : Except IOErr SockAddrDecoded) :
    Option (TcpListener × List Effect ×
      Poll (Option (Except IOErr (Nat × Nat)))) :=
  match l.poll_accept outcome decoded with
  | none => none
  | some (l', es, .pending) => some (l', es, .pending)
  | some (l', es, .ready r) => some (l', es, .ready (some r))

/-- One kernel oracle per poll of the `incoming` stream: the ring outcome
and what the address buffer decodes to at that completion. -/
abbrev AcceptOracle := Option (Except IOErr Nat) × Except IOErr SockAddrDecoded

/-- Repeatedly poll the `incoming` stream, once per oracle entry, counting
the items produced; `none` if any poll panics. -/
def Incoming.poll_many (l : TcpListener) :
    List AcceptOracle → Option (TcpListener × Nat)
  | [] => some (l, 0)
  | (o, d) :: rest =>
    match Incoming.poll_next l o d with
    | none => none
    | some (l', _, .pending) => Incoming.poll_many l' rest
    | some (l', _, .ready _) =>
      match Incoming.poll_many l' rest with
      | none => none
      | some (l'', n) => some (l'', n + 1)

/-- Per-stream operation-state tag (`enum Op` in `stream.rs`). -/
inductive SOp where
  | Read
  | Write
  | Close
  | Nothing
  | Closed
deriving DecidableEq, Repr

/-- Modelled from the spec: the buffering collaborator (`crate::buf::Buffer`
is not part of the extracted source).  Section 6 gives its contract:
`fill_from_empty(fill_fn) → region`, idempotent while unconsumed;
`consume(n)`; `clear()`; `cancellation_token()`.  `tok` identifies the
backing region the token wraps, `cap` bounds how many bytes one staging
step may hold, `data` is the filled, unconsumed region (`none` = empty). -/
structure Buffer where
  tok : Nat
  cap : Nat
  data : Option (List Nat)
deriving DecidableEq, Repr

/-- Modelled from the spec: `cancellation_token()` — wraps the backing
region. -/
def Buffer.cancellation (b : Buffer) : Cancellation :=
  Cancellation.buffer b.tok

/-- Modelled from the spec: `clear()` — empties the staged region. -/
def Buffer.clear (b : Buffer) : Buffer :=
  { b with data := none }

/-- The stream socket object (`TcpStream` in `stream.rs`): a ring handle,
the shared read/write buffer, the active-operation tag and the raw file
descriptor. -/
structure TcpStream where
  ring : RingHandle
  buf : Buffer
  active : SOp
  fd : Nat
deriving DecidableEq, Repr

/-- `TcpStream::from_fd`: a fresh stream over an accepted or connected
descriptor, idle, with a default (empty) buffer of capacity `cap`. -/
def TcpStream.from_fd (fd : Nat) (ring : RingHandle) (tok cap : Nat) : TcpStream :=
  { ring := ring, buf := { tok := tok, cap := cap, data := none },
    active := SOp.Nothing, fd := fd }

/-- `TcpStream::guard_op`: panic (`none`) when the stream is closed; when a
different operation is live, cancel it with `buf.cancellation()`; finally
record `op` as active. -/
def TcpStream.guard_op (s : TcpStream) (op : SOp) :
    Option (TcpStream × List Effect) :=
  if s.active = SOp.Closed then
    none
  else if s.active ≠ SOp.Nothing ∧ s.active ≠ op then
    let (r, es) := s.ring.cancel s.buf.cancellation
    some ({ s with ring := r, active := op }, es)
  else
    some ({ s with active := op }, [])

/-- `TcpStream::cancel`: reset the tag and hand the buffer's token to the
ring. -/
def TcpStream.cancel (s : TcpStream) : TcpStream × List Effect :=
  let (r, es) := s.ring.cancel s.buf.cancellation
  ({ s with ring := r, active := SOp.Nothing }, es)

/-- `TcpStream::confirm_close`: record the terminal state. -/
def TcpStream.confirm_close (s : TcpStream) : TcpStream :=
  { s with active := SOp.Closed }

/-- `impl Drop for TcpStream`: in the terminal state do nothing, when idle
close the descriptor synchronously, otherwise cancel the outstanding
operation. -/
def TcpStream.drop (s : TcpStream) : List Effect :=
  match s.active with
  | SOp.Closed => []
  | SOp.Nothing => [.closeFd s.fd]
  | _ => s.cancel.2

/-- `AsyncBufRead::poll_fill_buf` for `TcpStream`: guard to `Read`; if the
buffer already holds unconsumed data it is returned without touching the
ring; otherwise submit-or-poll a kernel read (`kernelData` is the bytes the
kernel wrote, truncated to the reported length) and expose the filled
region. -/
def TcpStream.poll_fill_buf (s : TcpStream)
    (outcome : Option (Except IOErr Nat)) (kernelData : List Nat) :
    Option (TcpStream × List Effect × Poll (Except IOErr (List Nat))) :=
  match s.guard_op SOp.Read with
  | none => none
  | some (s1, es1) =>
    match s1.buf.data with
    | some region => some (s1, es1, .ready (.ok region))
    | none =>
      match s1.ring.poll outcome with
      | (r, es2, none) => some ({ s1 with ring := r }, es1 ++ es2, .pending)
      | (r, es2, some (.error e)) =>
          some ({ s1 with ring := r }, es1 ++ es2, .ready (.error e))
      | (r, es2, some (.ok n)) =>
          let region := kernelData.take n
          let s2 := { s1 with ring := r, buf := { s1.buf with data := some region } }
          some (s2, es1 ++ es2, .ready (.ok region))

/-- `AsyncWrite::poll_write` for `TcpStream`: guard to `Write`; stage the
caller's bytes into the buffer (synchronously ready, bounded by the
buffer's capacity; idempotent if a region is already staged), submit-or-poll
one kernel write of the staged region, and clear the buffer on successful
completion, returning the kernel's byte count. -/
def TcpStream.poll_write (s : TcpStream) (slice : List Nat)
    (outcome : Option (Except IOErr Nat)) :
    Option (TcpStream × List Effect × Poll (Except IOErr Nat)) :=
  match s.guard_op SOp.Write with
  | none => none
  | some (s1, es1) =>
    let staged := match s1.buf.data with
      | some region => region
      | none => slice.take s1.buf.cap
    let s2 := { s1 with buf := { s1.buf with data := some staged } }
    match s2.ring.poll outcome with
    | (r, es2, none) => some ({ s2 with ring := r }, es1 ++ es2, .pending)
    | (r, es2, some (.error e)) =>
        some ({ s2 with ring := r }, es1 ++ es2, .ready (.error e))
    | (r, es2, some (.ok n)) =>
        some ({ s2 with ring := r, buf := Buffer.clear s2.buf },
          es1 ++ es2, .ready (.ok n))

/-- `AsyncWrite::poll_close` for `TcpStream`: guard to `Close`,
submit-or-poll the close; on successful completion `confirm_close`. -/
def TcpStream.poll_close (s : TcpStream)
    (outcome : Option (Except IOErr Nat)) :
    Option (TcpStream × List Effect × Poll (Except IOErr Unit)) :=
  match s.guard_op SOp.Close with
  | none => none
  | some (s1, es1) =>
    match s1.ring.poll outcome with
    | (r, es2, none) => some ({ s1 with ring := r }, es1 ++ es2, .pending)
    | (r, es2, some (.error e)) =>
        some ({ s1 with ring := r }, es1 ++ es2, .ready (.error e))
    | (r, es2, some (.ok _)) =>
        some (TcpStream.confirm_close { s1 with ring := r },
          es1 ++ es2, .ready (.ok ()))

/-- The accept event descriptor (`event::Accept`): the optional address
buffer lent to the kernel, the listening descriptor and the accept flags. -/
structure AcceptEvent where
  addr : Option AddrBuf
  fd : Nat
  flags : Nat
deriving DecidableEq, Repr

/-- `Event::sqes_needed` for `Accept`: exactly one submission slot. -/
def AcceptEvent.sqes_needed (_e : AcceptEvent) : Nat := 1

/-- `Event::cancel` for `Accept`: the descriptor is consumed (in Rust via
`ManuallyDrop`, bypassing its destructor because the kernel may still hold
a reference into it) and the token wraps exactly its address buffer. -/
def AcceptEvent.cancel (e : AcceptEvent) : Cancellation :=
  Cancellation.addr e.addr

/-- One address candidate attempt in the `socket` resolution loop: the
candidate address (abstract) paired with what
`nix_socket::socket(...)` does for it — a fresh descriptor, or a failure
whose errno `io::Error::last_os_error()` then reports. -/
abbrev SocketAttempt := Nat × Except Nat Nat

/-- The loop body of `socket` in `net/tcp/mod.rs`: walk the resolved
candidates; the first successful creation returns that descriptor and
address; each failure replaces the pending error with the last OS error;
an exhausted list returns the pending error. -/
def socketLoop : List SocketAttempt → IOErr → Except IOErr (Nat × Nat)
  | [], err => .error err
  | (a, .ok fd) :: _, _ => .ok (fd, a)
  | (_, .error c) :: rest, _ => socketLoop rest (.osError c)

/-- `socket` in `net/tcp/mod.rs`: propagate a resolution failure from
`to_socket_addrs()?`, then run the candidate loop starting from the
input-validation error. -/
def socket (resolved : Except IOErr (List SocketAttempt)) :
    Except IOErr (Nat × Nat) :=
  match resolved with
  | .error e => .error e
  | .ok attempts =>
      socketLoop attempts (.invalidInput "could not resolve to any addresses")

/-- The `Connect` future's state
(`Connect(Result<Submission<event::Connect, D>, Option<io::Error>>)`):
either an owned driver submission for the connect event (whose `fd` and
boxed address it retains), or the error slot pre-populated by a failed
socket setup, emptied once the error has been yielded. -/
inductive ConnectSt where
  | submitted (fd : Nat) (addr : Nat)
  | failed (e : Option IOErr)
deriving DecidableEq, Repr

/-- `TcpStream::connect_on_driver`: if socket setup fails the future is
pre-populated with the error; otherwise the connect event is submitted to
the driver. -/
def TcpStream.connect_on_driver (socketResult : Except IOErr (Nat × Nat)) :
    ConnectSt :=
  match socketResult with
  | .error e => ConnectSt.failed (some e)
  | .ok (fd, a) => ConnectSt.submitted fd a

/-- `impl Future for Connect`: in the submission branch, poll the
submission (outcome oracle as for the ring); a successful completion
builds a stream over the connect event's descriptor.  In the error branch,
`err.take()` yields the stored error once and empties the slot; polling
the emptied slot is the `expect` panic
("polled Connect future after completion"). -/
def Connect.poll (c : ConnectSt) (outcome : Option (Except IOErr Nat)) :
    Option (ConnectSt × Poll (Except IOErr Nat)) :=
  match c with
  | ConnectSt.submitted fd a =>
    match outcome with
    | none => some (ConnectSt.submitted fd a, .pending)
    | some (.error e) => some (ConnectSt.submitted fd a, .ready (.error e))
    | some (.ok _) => some (ConnectSt.submitted fd a, .ready (.ok fd))
  | ConnectSt.failed (some e) => some (ConnectSt.failed none, .ready (.error e))
  | ConnectSt.failed none => none

/-- `TcpListener::poll_accept_no_addr`: guard to `Accept` and submit-or-poll
the accept with no address buffer; a completion yields the accepted
stream's descriptor. -/
def TcpListener.poll_accept_no_addr (l : TcpListener)
    (outcome : Option (Except IOErr Nat)) :
    Option (TcpListener × List Effect × Poll (Except IOErr Nat)) :=
  match l.guard_op LOp.Accept with
  | none => none
  | some (l1, es1) =>
    match l1.ring.poll outcome with
    | (r, es2, none) => some ({ l1 with ring := r }, es1 ++ es2, .pending)
    | (r, es2, some (.error e)) =>
        some ({ l1 with ring := r }, es1 ++ es2, .ready (.error e))
    | (r, es2, some (.ok fd)) =>
        some ({ l1 with ring := r }, es1 ++ es2, .ready (.ok fd))

/-- `impl Stream for IncomingNoAddr`: poll the inner address-free accept;
a ready completion is one more item, never end-of-sequence. -/
def IncomingNoAddr.poll_next (l : TcpListener)
    (outcome : Option (Except IOErr Nat)) :
    Option (TcpListener × List Effect × Poll (Option (Except IOErr Nat))) :=
  match l.poll_accept_no_addr outcome with
  | none => none
  | some (l', es, .pending) => some (l', es, .pending)
  | some (l', es, .ready r) => some (l', es, .ready (some r))

/-! ## Helper lemmas -/

/-- A successful guard records the requested operation as active. -/
theorem TcpListener.guard_op_active {l : TcpListener} {op : LOp}
    {l1 : TcpListener} {es : List Effect}
    (h : TcpListener.guard_op l op = some (l1, es)) : l1.active = op := by
  obtain ⟨⟨fl⟩, f, ac, ad, nb⟩ := l
  cases ac <;> cases op <;>
    simp_all [TcpListener.guard_op, RingHandle.cancel] <;>
    (obtain ⟨h1, h2⟩ := h; rw [← h1])

/-- A successful guard records the requested operation as active. -/
theorem stream_guard_op_active {s : TcpStream} {op : SOp}
    {s1 : TcpStream} {es : List Effect}
    (h : TcpStream.guard_op s op = some (s1, es)) : s1.active = op := by
  obtain ⟨⟨fl⟩, ⟨tk, cp, dt⟩, ac, f⟩ := s
  cases ac <;> cases op <;>
    simp_all [TcpStream.guard_op, RingHandle.cancel] <;>
    (obtain ⟨h1, h2⟩ := h; rw [← h1])

/-- Guarding the operation that is already active changes nothing and
issues no effect. -/
theorem TcpListener.guard_op_same {l : TcpListener} {op : LOp}
    (h : l.active = op) (hop : op ≠ LOp.Closed) :
    TcpListener.guard_op l op = some (l, []) := by
  obtain ⟨⟨fl⟩, f, ac, ad, nb⟩ := l
  subst h
  cases ac <;> simp_all [TcpListener.guard_op]

/-- Guarding the operation that is already active changes nothing and
issues no effect. -/
theorem stream_guard_op_same {s : TcpStream} {op : SOp}
    (h : s.active = op) (hop : op ≠ SOp.Closed) :
    TcpStream.guard_op s op = some (s, []) := by
  obtain ⟨⟨fl⟩, ⟨tk, cp, dt⟩, ac, f⟩ := s
  subst h
  cases ac <;> simp_all [TcpStream.guard_op]

/-- Guarding from the idle state records the operation and issues no
effect. -/
theorem TcpListener.guard_op_idle {l : TcpListener} (op : LOp)
    (h : l.active = LOp.Nothing) :
    TcpListener.guard_op l op = some ({ l with active := op }, []) := by
  obtain ⟨⟨fl⟩, f, ac, ad, nb⟩ := l
  subst h
  cases op <;> simp [TcpListener.guard_op]

/-- Guarding from the idle state records the operation and issues no
effect. -/
theorem stream_guard_op_idle {s : TcpStream} (op : SOp)
    (h : s.active = SOp.Nothing) :
    TcpStream.guard_op s op = some ({ s with active := op }, []) := by
  obtain ⟨⟨fl⟩, ⟨tk, cp, dt⟩, ac, f⟩ := s
  subst h
  cases op <;> simp [TcpStream.guard_op]

/-- The guard never emits a submission effect. -/
theorem TcpListener.guard_op_no_submit {l : TcpListener} {op : LOp}
    {l1 : TcpListener} {es : List Effect}
    (h : TcpListener.guard_op l op = some (l1, es)) : Effect.submit ∉ es := by
  obtain ⟨⟨fl⟩, f, ac, ad, nb⟩ := l
  cases ac <;> cases op <;>
    simp_all [TcpListener.guard_op, RingHandle.cancel] <;>
    (obtain ⟨h1, h2⟩ := h; rw [← h2]; simp)

/-- The guard never emits a submission effect. -/
theorem stream_guard_op_no_submit {s : TcpStream} {op : SOp}
    {s1 : TcpStream} {es : List Effect}
    (h : TcpStream.guard_op s op = some (s1, es)) : Effect.submit ∉ es := by
  obtain ⟨⟨fl⟩, ⟨tk, cp, dt⟩, ac, f⟩ := s
  cases ac <;> cases op <;>
    simp_all [TcpStream.guard_op, RingHandle.cancel] <;>
    (obtain ⟨h1, h2⟩ := h; rw [← h2]; simp)

/-! ## Claim theorems -/

/-- C1: when the guard state is a live operation kind and a different kind
is polled, the guard issues exactly one cancellation carrying the
previously held scratch memory (the listener's address-buffer option, the
stream's buffer token) and only then records the new kind; the guard never
emits a submission itself, and in a full poll (write polled on a reading
stream) the effect trace is exactly the cancellation followed by the
submission, the state already recording the new kind. -/
theorem guard_switch_cancels_first :
    (∀ (l : TcpListener) (op : LOp),
      l.active ≠ LOp.Nothing → l.active ≠ LOp.Closed → l.active ≠ op →
      TcpListener.guard_op l op =
        some ({ l with ring := ⟨false⟩, addr := none, active := op },
          [Effect.cancel (Cancellation.addr l.addr)])) ∧
    (∀ (s : TcpStream) (op : SOp),
      s.active ≠ SOp.Nothing → s.active ≠ SOp.Closed → s.active ≠ op →
      TcpStream.guard_op s op =
        some ({ s with ring := ⟨false⟩, active := op },
          [Effect.cancel (Cancellation.buffer s.buf.tok)])) ∧
    (∀ (l : TcpListener) (op : LOp) (l1 : TcpListener) (es : List Effect),
      TcpListener.guard_op l op = some (l1, es) → Effect.submit ∉ es) ∧
    (∀ (s : TcpStream) (op : SOp) (s1 : TcpStream) (es : List Effect),
      TcpStream.guard_op s op = some (s1, es) → Effect.submit ∉ es) ∧
    (∀ (s : TcpStream) (slice : List Nat), s.active = SOp.Read →
      ∃ s', TcpStream.poll_write s slice none =
          some (s', [Effect.cancel (Cancellation.buffer s.buf.tok),
            Effect.submit], Poll.pending) ∧ s'.active = SOp.Write) := by
  refine ⟨?_, ?_, ?_, ?_, ?_⟩
  · intro l op hn hc hop
    obtain ⟨⟨fl⟩, f, ac, ad, nb⟩ := l
    cases ac <;> cases op <;>
      simp_all [TcpListener.guard_op, RingHandle.cancel]
  · intro s op hn hc hop
    obtain ⟨⟨fl⟩, ⟨tk, cp, dt⟩, ac, f⟩ := s
    cases ac <;> cases op <;>
      simp_all [TcpStream.guard_op, RingHandle.cancel, Buffer.cancellation]
  · intro l op l1 es h
    exact TcpListener.guard_op_no_submit h
  · intro s op s1 es h
    exact stream_guard_op_no_submit h
  · intro s slice h
    obtain ⟨⟨fl⟩, ⟨tk, cp, dt⟩, ac, f⟩ := s
    subst h
    cases dt
    · exact ⟨_, rfl, rfl⟩
    · exact ⟨_, rfl, rfl⟩

/-- Witness for C1: an accepting listener polled for close cancels the
held address buffer. -/
theorem guard_switch_cancels_first_w :
    TcpListener.guard_op ⟨⟨true⟩, 3, LOp.Accept, some 5, 9⟩ LOp.Close =
      some (⟨⟨false⟩, 3, LOp.Close, none, 9⟩,
        [Effect.cancel (Cancellation.addr (some 5))]) :=
  guard_switch_cancels_first.1 ⟨⟨true⟩, 3, LOp.Accept, some 5, 9⟩ LOp.Close
    (by decide) (by decide) (by decide)

/-- C2: every operation guard panics exactly when the socket's state is
`Closed`, and every operation poll (accept, close, read, write, and close
again) on a closed socket panics. -/
theorem closed_socket_ops_panic :
    (∀ (l : TcpListener) (op : LOp),
      TcpListener.guard_op l op = none ↔ l.active = LOp.Closed) ∧
    (∀ (s : TcpStream) (op : SOp),
      TcpStream.guard_op s op = none ↔ s.active = SOp.Closed) ∧
    (∀ (l : TcpListener) outcome decoded, l.active = LOp.Closed →
      TcpListener.poll_accept l outcome decoded = none) ∧
    (∀ (l : TcpListener) outcome, l.active = LOp.Closed →
      TcpListener.poll_close l outcome = none) ∧
    (∀ (s : TcpStream) outcome kernelData, s.active = SOp.Closed →
      TcpStream.poll_fill_buf s outcome kernelData = none) ∧
    (∀ (s : TcpStream) slice outcome, s.active = SOp.Closed →
      TcpStream.poll_write s slice outcome = none) ∧
    (∀ (s : TcpStream) outcome, s.active = SOp.Closed →
      TcpStream.poll_close s outcome = none) := by
  refine ⟨?_, ?_, ?_, ?_, ?_, ?_, ?_⟩
  · intro l op
    obtain ⟨⟨fl⟩, f, ac, ad, nb⟩ := l
    cases ac <;> cases op <;> simp [TcpListener.guard_op, RingHandle.cancel]
  · intro s op
    obtain ⟨⟨fl⟩, ⟨tk, cp, dt⟩, ac, f⟩ := s
    cases ac <;> cases op <;> simp [TcpStream.guard_op, RingHandle.cancel]
  · intro l o d h
    simp [TcpListener.poll_accept, TcpListener.guard_op, h]
  · intro l o h
    simp [TcpListener.poll_close, TcpListener.guard_op, h]
  · intro s o kd h
    simp [TcpStream.poll_fill_buf, TcpStream.guard_op, h]
  · intro s sl o h
    simp [TcpStream.poll_write, TcpStream.guard_op, h]
  · intro s o h
    simp [TcpStream.poll_close, TcpStream.guard_op, h]

/-- Witness for C2: accepting on a closed listener panics. -/
theorem closed_socket_ops_panic_w :
    TcpListener.poll_accept ⟨⟨false⟩, 3, LOp.Closed, none, 0⟩ none
      (Except.ok (SockAddrDecoded.inet 0)) = none :=
  closed_socket_ops_panic.2.2.1 ⟨⟨false⟩, 3, LOp.Closed, none, 0⟩ none
    (Except.ok (SockAddrDecoded.inet 0)) (by decide)

/-- C3: teardown on drop — an idle socket closes its descriptor
synchronously and issues no cancellation; a socket with a live operation
issues exactly one cancellation and never synchronously closes the
descriptor; a closed socket's drop performs neither action. -/
theorem drop_teardown :
    (∀ l : TcpListener, l.active = LOp.Nothing →
      TcpListener.drop l = [Effect.closeFd l.fd]) ∧
    (∀ l : TcpListener, l.active = LOp.Accept ∨ l.active = LOp.Close →
      List.countP Effect.isCancel (TcpListener.drop l) = 1 ∧
      ∀ f, Effect.closeFd f ∉ TcpListener.drop l) ∧
    (∀ l : TcpListener, l.active = LOp.Closed → TcpListener.drop l = []) ∧
    (∀ s : TcpStream, s.active = SOp.Nothing →
      TcpStream.drop s = [Effect.closeFd s.fd]) ∧
    (∀ s : TcpStream,
      s.active = SOp.Read ∨ s.active = SOp.Write ∨ s.active = SOp.Close →
      List.countP Effect.isCancel (TcpStream.drop s) = 1 ∧
      ∀ f, Effect.closeFd f ∉ TcpStream.drop s) ∧
    (∀ s : TcpStream, s.active = SOp.Closed → TcpStream.drop s = []) := by
  refine ⟨?_, ?_, ?_, ?_, ?_, ?_⟩
  · intro l h
    simp [TcpListener.drop, h]
  · intro l h
    obtain ⟨⟨fl⟩, f, ac, ad, nb⟩ := l
    rcases h with h | h <;> (simp only at h; subst h) <;>
      simp [TcpListener.drop, TcpListener.cancel, RingHandle.cancel,
        List.countP_cons, List.countP_nil, Effect.isCancel]
  · intro l h
    simp [TcpListener.drop, h]
  · intro s h
    simp [TcpStream.drop, h]
  · intro s h
    obtain ⟨⟨fl⟩, ⟨tk, cp, dt⟩, ac, f⟩ := s
    rcases h with h | h | h <;> (simp only at h; subst h) <;>
      simp [TcpStream.drop, TcpStream.cancel, RingHandle.cancel,
        Buffer.cancellation, List.countP_cons, List.countP_nil,
        Effect.isCancel]
  · intro s h
    simp [TcpStream.drop, h]

/-- Witness for C3: dropping an idle listener closes its descriptor. -/
theorem drop_teardown_w :
    TcpListener.drop ⟨⟨false⟩, 3, LOp.Nothing, none, 0⟩ =
      [Effect.closeFd 3] :=
  drop_teardown.1 ⟨⟨false⟩, 3, LOp.Nothing, none, 0⟩ (by decide)

/-- C4: guarding the kind already active (or guarding from idle) issues no
cancellation and leaves the state at that kind; after any successful
guard, guarding the same kind again returns the same socket with no
effects, so re-polling never triggers a second cancellation or any
submission from the guard. -/
theorem guard_same_kind_idempotent :
    (∀ (l : TcpListener) (op : LOp), l.active = op → op ≠ LOp.Closed →
      TcpListener.guard_op l op = some (l, [])) ∧
    (∀ (l : TcpListener) (op : LOp), l.active = LOp.Nothing →
      TcpListener.guard_op l op = some ({ l with active := op }, [])) ∧
    (∀ (l : TcpListener) (op : LOp) (l1 : TcpListener) (es : List Effect),
      op ≠ LOp.Closed → TcpListener.guard_op l op = some (l1, es) →
      TcpListener.guard_op l1 op = some (l1, [])) ∧
    (∀ (s : TcpStream) (op : SOp), s.active = op → op ≠ SOp.Closed →
      TcpStream.guard_op s op = some (s, [])) ∧
    (∀ (s : TcpStream) (op : SOp), s.active = SOp.Nothing →
      TcpStream.guard_op s op = some ({ s with active := op }, [])) ∧
    (∀ (s : TcpStream) (op : SOp) (s1 : TcpStream) (es : List Effect),
      op ≠ SOp.Closed → TcpStream.guard_op s op = some (s1, es) →
      TcpStream.guard_op s1 op = some (s1, [])) :=
  ⟨fun _ _ h hop => TcpListener.guard_op_same h hop,
   fun _ op h => TcpListener.guard_op_idle op h,
   fun _ _ _ _ hop hg =>
     TcpListener.guard_op_same (TcpListener.guard_op_active hg) hop,
   fun _ _ h hop => stream_guard_op_same h hop,
   fun _ op h => stream_guard_op_idle op h,
   fun _ _ _ _ hop hg =>
     stream_guard_op_same (stream_guard_op_active hg) hop⟩

/-- Witness for C4: re-guarding a reading stream for read is a no-op. -/
theorem guard_same_kind_idempotent_w :
    TcpStream.guard_op ⟨⟨true⟩, ⟨2, 4, none⟩, SOp.Read, 6⟩ SOp.Read =
      some (⟨⟨true⟩, ⟨2, 4, none⟩, SOp.Read, 6⟩, []) :=
  guard_same_kind_idempotent.2.2.2.1 ⟨⟨true⟩, ⟨2, 4, none⟩, SOp.Read, 6⟩
    SOp.Read (by decide) (by decide)

/-- C5: cancelling an accept descriptor yields a token wrapping exactly
its address-buffer option and nothing else — the token is unchanged by the
descriptor's other fields.  (In Rust the descriptor is consumed through
`ManuallyDrop`, bypassing its destructor, and only the `addr` field moves
into the token.) -/
theorem accept_event_cancel_wraps_addr :
    ∀ e : AcceptEvent, AcceptEvent.cancel e = Cancellation.addr e.addr ∧
      ∀ fd' flags' : Nat,
        AcceptEvent.cancel { e with fd := fd', flags := flags' } =
          AcceptEvent.cancel e :=
  fun _ => ⟨rfl, fun _ _ => rfl⟩

/-- A ready, successfully decoded accept completion yields an item and
leaves the listener in the accepting state. -/
theorem Incoming.poll_next_ready_success (l : TcpListener) (f a : Nat)
    (h : l.active ≠ LOp.Closed) :
    ∃ l' es, Incoming.poll_next l (some (Except.ok f))
        (Except.ok (SockAddrDecoded.inet a)) =
      some (l', es, Poll.ready (some (Except.ok (f, a)))) ∧
      l'.active = LOp.Accept := by
  obtain ⟨⟨fl⟩, fd, ac, ad, nb⟩ := l
  cases ac <;> cases ad <;> cases fl <;>
    first
      | exact absurd rfl h
      | exact ⟨_, _, rfl, rfl⟩

/-- Folding the `incoming` stream over ready, Inet-decoding completions
produces one item per completion. -/
theorem Incoming.poll_many_success_count :
    ∀ (oracles : List AcceptOracle) (l : TcpListener),
      l.active ≠ LOp.Closed →
      (∀ p ∈ oracles, ∃ f a,
        p = (some (Except.ok f), Except.ok (SockAddrDecoded.inet a))) →
      ∃ l', Incoming.poll_many l oracles = some (l', oracles.length) := by
  intro oracles
  induction oracles with
  | nil => intro l _ _; exact ⟨l, rfl⟩
  | cons p rest ih =>
    intro l hl ho
    obtain ⟨f, a, hp⟩ := ho p (List.mem_cons_self p rest)
    subst hp
    obtain ⟨l1, es, heq, hact⟩ := Incoming.poll_next_ready_success l f a hl
    have hl1 : l1.active ≠ LOp.Closed := by rw [hact]; decide
    obtain ⟨l', hrec⟩ := ih l1 hl1 (fun q hq => ho q (List.mem_cons_of_mem _ hq))
    exact ⟨l', by simp [Incoming.poll_many, heq, hrec]⟩

/-- Counterexample to C6 as stated: on a fresh (idle) listener a
not-yet-ready poll of `incoming` returns pending but does change the guard
state — the guard records `Accept` and the address buffer is allocated. -/
theorem incoming_pending_poll_changes_state :
    Incoming.poll_next ⟨⟨false⟩, 4, LOp.Nothing, none, 0⟩ none
        (Except.ok (SockAddrDecoded.inet 0)) =
      some (⟨⟨true⟩, 4, LOp.Accept, some 0, 1⟩, [Effect.submit], Poll.pending) ∧
    (⟨⟨true⟩, 4, LOp.Accept, some 0, 1⟩ : TcpListener).active ≠
      (⟨⟨false⟩, 4, LOp.Nothing, none, 0⟩ : TcpListener).active :=
  ⟨rfl, by decide⟩

/-- C6 (amended): the `incoming` stream never signals end-of-sequence; N
ready completions produce exactly N items; a not-yet-ready poll returns
pending and leaves the guard state at `Accept` — in particular a poll on a
listener already mid-accept (buffer allocated, operation in flight) leaves
the listener completely unchanged; only the first poll moves an idle
listener's state to `Accept`. -/
theorem incoming_never_terminates :
    (∀ (l : TcpListener) outcome decoded l' es,
      Incoming.poll_next l outcome decoded ≠
        some (l', es, Poll.ready none)) ∧
    (∀ (l : TcpListener) outcome l' es,
      IncomingNoAddr.poll_next l outcome ≠
        some (l', es, Poll.ready none)) ∧
    (∀ (oracles : List AcceptOracle) (l : TcpListener),
      l.active ≠ LOp.Closed →
      (∀ p ∈ oracles, ∃ f a,
        p = (some (Except.ok f), Except.ok (SockAddrDecoded.inet a))) →
      ∃ l', Incoming.poll_many l oracles = some (l', oracles.length)) ∧
    (∀ (l : TcpListener) decoded, l.active ≠ LOp.Closed →
      ∃ l' es, Incoming.poll_next l none decoded =
        some (l', es, Poll.pending) ∧ l'.active = LOp.Accept) ∧
    (∀ (l : TcpListener) decoded b, l.active = LOp.Accept →
      l.addr = some b → l.ring.inFlight = true →
      Incoming.poll_next l none decoded = some (l, [], Poll.pending)) := by
  refine ⟨?_, ?_, Incoming.poll_many_success_count, ?_, ?_⟩
  · intro l o d l' es h
    unfold Incoming.poll_next at h
    rcases hpa : TcpListener.poll_accept l o d with _ | ⟨a, b, c⟩
    · rw [hpa] at h; cases h
    · rw [hpa] at h
      cases c <;> simp_all
  · intro l o l' es h
    unfold IncomingNoAddr.poll_next at h
    rcases hpa : TcpListener.poll_accept_no_addr l o with _ | ⟨a, b, c⟩
    · rw [hpa] at h; cases h
    · rw [hpa] at h
      cases c <;> simp_all
  · intro l d hl
    obtain ⟨⟨fl⟩, fd, ac, ad, nb⟩ := l
    cases ac <;> cases ad <;> cases fl <;>
      first
        | exact absurd rfl hl
        | exact ⟨_, _, rfl, rfl⟩
  · intro l d b h1 h2 h3
    obtain ⟨⟨fl⟩, fd, ac, ad, nb⟩ := l
    simp only at h1 h2 h3
    subst h1; subst h2; subst h3
    rfl

/-- Witness for C6: two ready completions on a fresh listener produce
exactly two items. -/
theorem incoming_never_terminates_w :
    ∃ l', Incoming.poll_many ⟨⟨false⟩, 4, LOp.Nothing, none, 0⟩
        [(some (Except.ok 9), Except.ok (SockAddrDecoded.inet 1)),
         (some (Except.ok 10), Except.ok (SockAddrDecoded.inet 2))] =
      some (l', 2) :=
  incoming_never_terminates.2.2.1
    [(some (Except.ok 9), Except.ok (SockAddrDecoded.inet 1)),
     (some (Except.ok 10), Except.ok (SockAddrDecoded.inet 2))]
    ⟨⟨false⟩, 4, LOp.Nothing, none, 0⟩ (by decide)
    (by
      intro p hp
      rcases List.mem_cons.mp hp with h | hp2
      · exact ⟨9, 1, h⟩
      · rcases List.mem_cons.mp hp2 with h | h
        · exact ⟨10, 2, h⟩
        · simp at h)

/-- When every candidate so far fails, the loop ends on the last errno. -/
theorem socketLoop_all_error_last (a c : Nat) :
    ∀ (pre : List SocketAttempt) (err : IOErr),
      (∀ p ∈ pre, ∃ c', p.2 = Except.error c') →
      socketLoop (pre ++ [(a, Except.error c)]) err =
        Except.error (IOErr.osError c) := by
  intro pre
  induction pre with
  | nil => intro err _; rfl
  | cons x rest ih =>
    intro err h
    obtain ⟨xa, xr⟩ := x
    obtain ⟨c', hx⟩ := h (xa, xr) (List.mem_cons_self _ _)
    simp only at hx
    subst hx
    exact ih (IOErr.osError c') (fun q hq => h q (List.mem_cons_of_mem _ hq))

/-- The first successfully created socket wins, with its own address. -/
theorem socketLoop_first_success (a fd : Nat) (rest : List SocketAttempt) :
    ∀ (pre : List SocketAttempt) (err : IOErr),
      (∀ p ∈ pre, ∃ c', p.2 = Except.error c') →
      socketLoop (pre ++ (a, Except.ok fd) :: rest) err =
        Except.ok (fd, a) := by
  intro pre
  induction pre with
  | nil => intro err _; rfl
  | cons x rest' ih =>
    intro err h
    obtain ⟨xa, xr⟩ := x
    obtain ⟨c', hx⟩ := h (xa, xr) (List.mem_cons_self _ _)
    simp only at hx
    subst hx
    exact ih (IOErr.osError c') (fun q hq => h q (List.mem_cons_of_mem _ hq))

/-- C7: socket setup over resolved candidates — zero candidates yield the
input-validation error; when every candidate's socket creation fails the
last OS error is returned; the first succeeding candidate yields success
with that candidate's descriptor and address. -/
theorem socket_resolution :
    socket (Except.ok []) =
      Except.error (IOErr.invalidInput "could not resolve to any addresses") ∧
    (∀ (pre : List SocketAttempt) (a c : Nat),
      (∀ p ∈ pre, ∃ c', p.2 = Except.error c') →
      socket (Except.ok (pre ++ [(a, Except.error c)])) =
        Except.error (IOErr.osError c)) ∧
    (∀ (pre rest : List SocketAttempt) (a fd : Nat),
      (∀ p ∈ pre, ∃ c', p.2 = Except.error c') →
      socket (Except.ok (pre ++ (a, Except.ok fd) :: rest)) =
        Except.ok (fd, a)) :=
  ⟨rfl,
   fun pre a c h => socketLoop_all_error_last a c pre _ h,
   fun pre rest a fd h => socketLoop_first_success a fd rest pre _ h⟩

/-- Witness for C7: two failing candidates end on the second errno. -/
theorem socket_resolution_w :
    socket (Except.ok ([((1 : Nat), Except.error (7 : Nat))] ++
        [((2 : Nat), Except.error (8 : Nat))])) =
      Except.error (IOErr.osError 8) :=
  socket_resolution.2.1 [(1, Except.error 7)] 2 8
    (by
      intro p hp
      simp only [List.mem_singleton] at hp
      subst hp
      exact ⟨7, rfl⟩)

/-- C8: a connect whose socket setup (creation or resolution) failed
before any submission is pre-populated with that error, yields it exactly
once when polled, and a further poll is the `expect` panic, not a repeated
error. -/
theorem connect_error_prepopulated_once :
    ∀ (e : IOErr) (o o' : Option (Except IOErr Nat)),
      TcpStream.connect_on_driver (Except.error e) =
        ConnectSt.failed (some e) ∧
      Connect.poll (ConnectSt.failed (some e)) o =
        some (ConnectSt.failed none, Poll.ready (Except.error e)) ∧
      Connect.poll (ConnectSt.failed none) o' = none :=
  fun _ _ _ => ⟨rfl, rfl, rfl⟩

/-- C9: a completed accept whose peer address decodes to a non-Inet family
panics; an Inet-decoding completion returns the peer's address with the
accepted descriptor. -/
theorem accept_foreign_family_panics :
    ∀ (l : TcpListener) (fd : Nat), l.active ≠ LOp.Closed →
      (∀ fam, TcpListener.poll_accept l (some (Except.ok fd))
        (Except.ok (SockAddrDecoded.otherFamily fam)) = none) ∧
      (∀ a, ∃ l' es, TcpListener.poll_accept l (some (Except.ok fd))
        (Except.ok (SockAddrDecoded.inet a)) =
          some (l', es, Poll.ready (Except.ok (fd, a)))) := by
  intro l fd hl
  obtain ⟨⟨fl⟩, f, ac, ad, nb⟩ := l
  constructor
  · intro fam
    cases ac <;> cases ad <;> cases fl <;>
      first | exact absurd rfl hl | rfl
  · intro a
    cases ac <;> cases ad <;> cases fl <;>
      first | exact absurd rfl hl | exact ⟨_, _, rfl⟩

/-- Witness for C9: a concrete completed accept decoding to a Unix-family
address panics. -/
theorem accept_foreign_family_panics_w :
    TcpListener.poll_accept ⟨⟨true⟩, 3, LOp.Accept, some 5, 9⟩
        (some (Except.ok 11)) (Except.ok (SockAddrDecoded.otherFamily 1)) =
      none :=
  (accept_foreign_family_panics ⟨⟨true⟩, 3, LOp.Accept, some 5, 9⟩ 11
    (by decide)).1 1

/-- Counterexample to C10 as stated: an accept completion carrying a
kernel error returns the error before the decode block is reached, so the
address buffer is retained (`addr` is still `some 7`), not released. -/
theorem accept_error_completion_retains_buffer :
    TcpListener.poll_accept ⟨⟨true⟩, 5, LOp.Accept, some 7, 8⟩
        (some (Except.error (IOErr.osError 111)))
        (Except.ok (SockAddrDecoded.inet 0)) =
      some (⟨⟨false⟩, 5, LOp.Accept, some 7, 8⟩, [],
        Poll.ready (Except.error (IOErr.osError 111))) ∧
    (⟨⟨false⟩, 5, LOp.Accept, some 7, 8⟩ : TcpListener).addr = some 7 :=
  ⟨rfl, rfl⟩

/-- C10 (amended): on an accept poll that observes a *successful* kernel
completion, the address buffer is released before the decode result is
inspected — the listener's stored buffer is absent afterwards even when
decoding fails, and the decode error is then returned; on an error
completion the error propagates before the decode block and the buffer is
retained for the next attempt. -/
theorem accept_success_releases_buffer :
    ∀ (l : TcpListener) (fd : Nat) (d : Except IOErr SockAddrDecoded),
      l.active ≠ LOp.Closed →
      (∀ e, d = Except.error e →
        ∃ l' es, TcpListener.poll_accept l (some (Except.ok fd)) d =
          some (l', es, Poll.ready (Except.error e)) ∧ l'.addr = none) ∧
      (∀ a, d = Except.ok (SockAddrDecoded.inet a) →
        ∃ l' es out, TcpListener.poll_accept l (some (Except.ok fd)) d =
          some (l', es, out) ∧ l'.addr = none) := by
  intro l fd d hl
  obtain ⟨⟨fl⟩, f, ac, ad, nb⟩ := l
  constructor
  · intro e hd
    subst hd
    cases ac <;> cases ad <;> cases fl <;>
      first | exact absurd rfl hl | exact ⟨_, _, rfl, rfl⟩
  · intro a hd
    subst hd
    cases ac <;> cases ad <;> cases fl <;>
      first | exact absurd rfl hl | exact ⟨_, _, _, rfl, rfl⟩

/-- Witness for C10: a successful completion whose decode fails still
releases the buffer and surfaces the decode error. -/
theorem accept_success_releases_buffer_w :
    ∃ l' es, TcpListener.poll_accept ⟨⟨true⟩, 5, LOp.Accept, some 7, 8⟩
        (some (Except.ok 11)) (Except.error (IOErr.other 22)) =
      some (l', es, Poll.ready (Except.error (IOErr.other 22))) ∧
      l'.addr = none :=
  (accept_success_releases_buffer ⟨⟨true⟩, 5, LOp.Accept, some 7, 8⟩ 11
    (Except.error (IOErr.other 22)) (by decide)).1 (IOErr.other 22) rfl
